import Mathlib

/-!
Verification of the scripting bridge (lua_scripting.cpp) of the ardb server.

The development shallowly embeds the value marshaler, the script cache, the
command bridge, the EVAL/EVALSHA resolve and run phases, the deterministic
RNG pipeline, the cancellation hook and the kill event callback.  Pure
helpers that live outside the studied source file (the string helper, the
digest function, the script store, the rand48 generator) are modelled from
the specification; each such definition carries a doc comment saying so.
-/

namespace ArdbLua

/-- The wire reply data model (`RedisReply` in the source): a tagged variant
with integer, nil, bulk string, status line, error line and array kinds. -/
inductive RedisReply : Type where
  | integer : Int → RedisReply
  | nil : RedisReply
  | bulk : String → RedisReply
  | status : String → RedisReply
  | error : String → RedisReply
  | array : List RedisReply → RedisReply

/-- The script-side value model: the Lua values the marshaler can meet.
A table is modelled by the three projections the conversion code reads:
the value of its string key "err", the value of its string key "ok", and
the values at the numeric keys 1..n (a gap inside a sparse table is the
`nil` value, exactly what `lua_gettable` returns there).  `other` stands
for the Lua kinds the conversion does not handle (function, userdata,
thread); Lua numbers are modelled as exact rationals. -/
inductive LuaValue : Type where
  | nil : LuaValue
  | boolean : Bool → LuaValue
  | num : Rat → LuaValue
  | str : String → LuaValue
  | table : LuaValue → LuaValue → List LuaValue → LuaValue
  | other : LuaValue

/-- The string payload of a Lua value when it is of string type. -/
def strVal? : LuaValue → Option String
  | .str s => some s
  | _ => none

/-- Whether a Lua value is the nil value. -/
def isNilVal : LuaValue → Bool
  | .nil => true
  | _ => false

/-- One replacement pass over a character list: every occurrence of the
two-character sequence CR LF becomes a single space. -/
def replaceCRLF : List Char → List Char
  | [] => []
  | [c] => [c]
  | a :: b :: rest =>
    if a = '\r' ∧ b = '\n' then ' ' :: replaceCRLF rest
    else a :: replaceCRLF (b :: rest)

/-- Whether a character list contains the sequence CR LF. -/
def containsCRLF : List Char → Bool
  | [] => false
  | [_] => false
  | a :: b :: rest =>
    if a = '\r' ∧ b = '\n' then true else containsCRLF (b :: rest)

/-- Modelled from the spec: the out-of-src string helper `string_replace`
(util), as called by the marshaler with pattern CR LF and replacement a
single space — each newline sequence in the message is replaced by one
space to preserve line framing. -/
def string_replace (s : String) : String := ⟨replaceCRLF s.data⟩

/-- ASCII lowercasing of one character. -/
def asciiToLower (c : Char) : Char :=
  if 65 ≤ c.toNat ∧ c.toNat ≤ 90 then Char.ofNat (c.toNat + 32) else c

/-- Modelled from the spec: the out-of-src string helper `lower_string`
(util), ASCII lowercasing of a whole string, applied to the command name
before the registry lookup. -/
def lower_string (s : String) : String := ⟨s.data.map asciiToLower⟩

/-- Whether a character list contains the NUL character. -/
def containsNul (l : List Char) : Bool := l.any fun c => c == Char.ofNat 0

/-- The conversion `std::string err = lua_tostring(lua, -1)` of the err
and ok branches (src/src/lua_scripting.cpp, lines 219 and 233): the
char-pointer constructor of the C++ string copies up to the first NUL
byte, so a payload with an embedded NUL is truncated there (unlike the
length-aware copies of the bulk-string and argument paths). -/
def charPtrToStdString (s : String) : String :=
  ⟨s.data.takeWhile fun c => !(c == Char.ofNat 0)⟩

/-- Number of binary digits of a natural number, with explicit structural
fuel so that it reduces in the kernel. -/
def bitLenAux : Nat → Nat → Nat
  | 0, _ => 0
  | fuel + 1, n => if n = 0 then 0 else bitLenAux fuel (n / 2) + 1

/-- Number of binary digits of a natural number. -/
def bitLen (n : Nat) : Nat := bitLenAux n n

/-- Round-to-nearest, ties to even, of a natural number to 53 significant
bits: the magnitude an IEEE 754 double assumes for an int64 value. -/
def roundNat53 (n : Nat) : Nat :=
  if n < 2 ^ 53 then n
  else
    let k := bitLen n - 53
    let q := n / 2 ^ k
    let r := n % 2 ^ k
    let half := 2 ^ (k - 1)
    let q1 := if half < r ∨ (r = half ∧ q % 2 = 1) then q + 1 else q
    q1 * 2 ^ k

/-- The cast `(lua_Number) reply.integer` (src/src/lua_scripting.cpp,
line 50): an int64 converted to an IEEE 754 double.  Magnitudes beyond
2^53 are rounded to the nearest representable value (ties to even);
every int64 rounds to an integral double, so the result is an integer. -/
def doubleOfInt (i : Int) : Int :=
  if 0 ≤ i then (roundNat53 i.toNat : Int) else -((roundNat53 (-i).toNat : Nat) : Int)

/-- Truncation of a rational toward zero, the semantics of the C cast
`(long long) lua_tonumber(...)` in the number branch of the marshaler. -/
def truncRat (q : Rat) : Int :=
  if 0 ≤ q.num then ((q.num.toNat / q.den : Nat) : Int)
  else - ((((-q.num).toNat / q.den : Nat)) : Int)

mutual
/-- Embeds `luaReplyToRedisReply` (src/src/lua_scripting.cpp, lines
184-273): converts the value a script left on the stack into a wire
reply.  A string becomes a bulk string; boolean true becomes integer 1
and false becomes nil; a number is truncated toward zero; a table is
checked for a string-typed err field, then a string-typed ok field, and
otherwise converted to an array by the index loop `convArray`; any other
kind falls to the default branch and becomes nil.  The err and ok
payloads pass through the char-pointer string conversion (truncation at
the first NUL, lines 219/233) before the newline sanitation. -/
def luaReplyToRedisReply : LuaValue → RedisReply
  | .str s => .bulk s
  | .boolean b => if b then .integer 1 else .nil
  | .num q => .integer (truncRat q)
  | .table err ok arr =>
    match strVal? err with
    | some e => .error (string_replace (charPtrToStdString e))
    | none =>
      match strVal? ok with
      | some s => .status (string_replace (charPtrToStdString s))
      | none => .array (convArray arr)
  | .nil => .nil
  | .other => .nil

/-- The array loop of `luaReplyToRedisReply`: reads the values stored at
1, 2, 3, ... in order and stops at the first nil. -/
def convArray : List LuaValue → List RedisReply
  | [] => []
  | v :: rest =>
    if isNilVal v then [] else luaReplyToRedisReply v :: convArray rest
end

/-- Reading the numeric key `j` (1-based) of a table whose stored numeric
values are `arr`: positions past the stored ones hold nil. -/
def tableGet (arr : List LuaValue) (j : Nat) : LuaValue :=
  if h : j - 1 < arr.length then arr[j - 1] else .nil

mutual
/-- The reference map of the amended claim (spec 4.1, `toWireReply`,
amended with the NUL truncation the char-pointer conversion performs),
written with the index-probing boundary policy the spec describes:
string to bulk string, boolean false to nil, boolean true to integer 1,
number to truncated integer, err-table to error with the message
truncated at its first NUL byte and then newline-sanitized, ok-table to
status with the same truncation and sanitation, other tables to arrays
built by probing increasing 1-based indices until a missing entry,
anything else to nil. -/
def toWireReplySpec : LuaValue → RedisReply
  | .str s => .bulk s
  | .boolean b => if b then .integer 1 else .nil
  | .num q => .integer (truncRat q)
  | .table err ok arr =>
    match strVal? err with
    | some e => .error (string_replace (charPtrToStdString e))
    | none =>
      match strVal? ok with
      | some s => .status (string_replace (charPtrToStdString s))
      | none => .array (probe arr 1)
  | .nil => .nil
  | .other => .nil
termination_by v => (sizeOf v, 0)

/-- Probing of increasing 1-based indices of a table, stopping at the
first missing (nil) entry, as the spec states the array boundary policy. -/
def probe (arr : List LuaValue) (j : Nat) : List RedisReply :=
  if h : isNilVal (tableGet arr j) = true then []
  else toWireReplySpec (tableGet arr j) :: probe arr (j + 1)
termination_by (sizeOf arr, arr.length + 1 - j)
decreasing_by
  · have hlt : j - 1 < arr.length := by
      by_contra hc
      simp [tableGet, hc, isNilVal] at h
    have hmem : tableGet arr j ∈ arr := by
      simp only [tableGet, hlt, dite_true]
      exact arr.getElem_mem hlt
    exact Prod.Lex.left _ _ (List.sizeOf_lt_of_mem hmem)
  · have hlt : j - 1 < arr.length := by
      by_contra hc
      simp [tableGet, hc, isNilVal] at h
    exact Prod.Lex.right _ (by omega)
end

mutual
/-- Embeds `redisProtocolToLuaType` (src/src/lua_scripting.cpp, lines
44-100): converts a wire reply into the Lua value pushed for the script.
An integer is pushed through the `(lua_Number) reply.integer` cast (an
int64 to an IEEE 754 double, lossy beyond 2^53) and becomes a number,
nil becomes boolean false, a bulk string becomes a string (length-aware
push), a status becomes a table with a single string "ok" field, an
error a table with a single string "err" field, and an array a table
with the converted elements at keys 1..n. -/
def redisProtocolToLuaType : RedisReply → LuaValue
  | .integer i => .num ((doubleOfInt i : Int) : Rat)
  | .nil => .boolean false
  | .bulk s => .str s
  | .status s => .table .nil (.str s) []
  | .error s => .table (.str s) .nil []
  | .array l => .table .nil .nil (luaTypeList l)

/-- The element loop of `redisProtocolToLuaType` over an array reply. -/
def luaTypeList : List RedisReply → List LuaValue
  | [] => []
  | r :: rest => redisProtocolToLuaType r :: luaTypeList rest
end

mutual
/-- A wire reply survives the marshaling round trip untouched when no
status or error payload anywhere in it contains the CR LF sequence (the
protocol line terminator, sanitized on the way back) or a NUL byte
(truncated by the char-pointer conversion on the way back), and every
integer anywhere in it is exactly representable as an IEEE 754 double
(the int64-to-double cast returns it unchanged). -/
def marshalSafe : RedisReply → Bool
  | .integer i => doubleOfInt i == i
  | .status s => !containsCRLF s.data && !containsNul s.data
  | .error s => !containsCRLF s.data && !containsNul s.data
  | .array l => marshalSafeList l
  | _ => true

/-- Marshal-safety of every element of an array reply. -/
def marshalSafeList : List RedisReply → Bool
  | [] => true
  | r :: rest => marshalSafe r && marshalSafeList rest
end

/-- Whether a wire reply is of the integer kind. -/
def isIntegerReply : RedisReply → Bool
  | .integer _ => true
  | _ => false

/-! ### Script cache and digest naming -/

/-- A hexadecimal digit character, lowercase for values 10..15. -/
def hexDigit (n : Nat) : Char :=
  if n < 10 then Char.ofNat (48 + n) else Char.ofNat (87 + n)

/-- `k` hexadecimal digits of `n`, most significant first, zero padded. -/
def toHex : Nat → Nat → List Char
  | 0, _ => []
  | k + 1, n => toHex k (n / 16) ++ [hexDigit (n % 16)]

/-- Modelled from the spec: the external cryptographic digest collaborator
(`sha1_sum`), treated as a black-box deterministic 160-bit hash over byte
strings rendered as exactly 40 lowercase hex characters.  The concrete
mixing function is a stand-in; the development only relies on determinism
and on the output format. -/
def sha1_sum (s : String) : String :=
  ⟨toHex 40 (s.data.foldl (fun a c => (a * 131 + c.toNat + 7) % (2 ^ 160)) 5381)⟩

/-- The function identity string of a script body: the fixed "f_" marker
followed by the digest, as built throughout the source. -/
def funcNameOfDigest (digest : String) : String := "f_" ++ digest

/-- The chunk text `CreateLuaFunction` compiles: the body wrapped into a
named zero-argument function definition. -/
def funcdef (funcname body : String) : String :=
  "function " ++ funcname ++ "() " ++ body ++ " end"

/-- The interpreter-plus-store state the script cache operations read and
write: which function names are defined inside the interpreter, and the
body recorded under each name in the external script store (the latter
modelled from the spec contract Save/Get, since the store lives outside
the studied file). -/
structure InterpState where
  luaDefined : String → Bool
  store : String → Option String

/-- Embeds `CreateLuaFunction` (src/src/lua_scripting.cpp, lines 292-318):
compiles the wrapped chunk, runs it to define the named function, then
persists the name-to-body record via the external store.  The embedded
compiler is passed in as `compile`, returning an error message on a
malformed chunk and nothing on success; running the definition chunk is a
main-chunk assignment, which the globals protection permits, so it is
modelled as always succeeding.  On failure the error text is appended to
the caller-supplied `err` string and the state is unchanged. -/
def CreateLuaFunction (compile : String → Option String) (st : InterpState)
    (funcname body err : String) : InterpState × Bool × String :=
  match compile (funcdef funcname body) with
  | some msg =>
    (st, false, err ++ "Error compiling script (new function): " ++ msg ++ "\n")
  | none =>
    ({ luaDefined := fun n => n == funcname || st.luaDefined n,
       store := fun n => if n == funcname then some body else st.store n },
     true, err)

/-- Embeds `Load` (src/src/lua_scripting.cpp, lines 783-790): computes the
digest of the body, defines the function named after it, and returns the
digest string (into which `CreateLuaFunction` appends an error message on
failure, since the source passes the same string as the error sink). -/
def Load (compile : String → Option String) (st : InterpState) (func : String) :
    InterpState × Bool × String :=
  let ret := sha1_sum func
  let funcname := funcNameOfDigest ret
  let (st1, ok, ret1) := CreateLuaFunction compile st funcname func ret
  (st1, ok, ret1)

/-! ### EVAL resolve phase -/

/-- The NOSCRIPT error reply of the source. -/
def noscriptReply : RedisReply :=
  .error "-NOSCRIPT No matching script. Please use EVAL."

/-- Outcome of the resolve phase of `Eval`: either an early error reply is
returned (and the protected call is never made, so no command executes),
or control proceeds to invoke the named function. -/
inductive ResolveResult : Type where
  | errorReply : RedisReply → ResolveResult
  | proceed : String → ResolveResult

/-- Embeds the resolve phase of `Eval` (src/src/lua_scripting.cpp, lines
672-726): an EVALSHA digest of length other than 40 is rejected with
NOSCRIPT before any lookup; otherwise the function name is derived (from
the digest, or by hashing the raw body) and the interpreter global is
consulted.  When it is undefined and this is a digest call, line 708
tests `!GetScript(funcname, cachedfunc)`; the same file pins the store
convention through `Exists` at line 780 (`GetScript(...) == 0` iff a
record exists, as the spec endorses), so the NOSCRIPT branch fires
exactly when the record EXISTS, while a missing record falls through
with `cachedfunc` still empty and the empty body is compiled, defined
and run.  A raw-body call compiles the supplied body.  The store lookup
itself is modelled from the spec contract Get returning the body or
NotFound, with a failed Get leaving the output string empty. -/
def EvalResolve (st : InterpState) (compile : String → Option String)
    (func : String) (isSHA1Func : Bool) : ResolveResult :=
  if isSHA1Func ∧ func.length ≠ 40 then .errorReply noscriptReply
  else
    let funcname := funcNameOfDigest (if isSHA1Func then func else sha1_sum func)
    if st.luaDefined funcname then .proceed funcname
    else if isSHA1Func ∧ (st.store funcname).isSome then .errorReply noscriptReply
    else
      let body := if isSHA1Func then "" else func
      match compile (funcdef funcname body) with
      | some msg =>
        .errorReply (.error ("Error compiling script (new function): " ++ msg ++ "\n"))
      | none => .proceed funcname

/-! ### Per-connection run context, run phase, cancellation hook -/

/-- The per-connection scripting context (`LuaExecContext` behind
`ctx->GetLua()` in the source): start time of the current run, the name
of the currently executing function (without the "f_" marker), the
advisory timeout flag and the kill request flag. -/
structure LuaCtx where
  lua_time_start : Nat
  lua_executing_func : Option String
  lua_timeout : Bool
  lua_kill : Bool

/-- The interpreter-side bookkeeping the run phase manipulates besides the
connection context: whether the instruction-count hook is installed, and
how many incremental garbage-collection steps have been performed. -/
structure MachineState where
  ctx : LuaCtx
  hookInstalled : Bool
  gcSteps : Nat

/-- The context exactly as the run phase hands it to the protected call:
start time recorded, executing function set to the name with the two
marker characters dropped, and the kill flag cleared. -/
def runStartCtx (c : LuaCtx) (now : Nat) (funcname : String) : LuaCtx :=
  { c with lua_time_start := now,
           lua_executing_func := some (funcname.drop 2),
           lua_kill := false }

/-- Embeds the run phase of `Eval` (src/src/lua_scripting.cpp, lines
733-772): install the instruction-count hook when a positive time limit
is configured, record the start time and executing function, clear the
kill flag, make the protected call, then clear the executing function,
uninstall the hook if it was installed, clear a lingering timeout flag
and perform one incremental garbage-collection step.  The protected call
itself is abstracted as `body`, a transformer of the connection context
(the hook and the event callback may set the timeout and kill flags
during the run) paired with the nonzero-error indicator of `lua_pcall`. -/
def EvalRunPhase (lua_time_limit : Int) (now : Nat) (funcname : String)
    (body : LuaCtx → LuaCtx × Bool) (st : MachineState) : MachineState × Bool :=
  let delhook := 0 < lua_time_limit
  let st1 := if delhook then { st with hookInstalled := true } else st
  let (c1, errid) := body (runStartCtx st1.ctx now funcname)
  let c2 := { c1 with lua_executing_func := none }
  let st2 := { st1 with ctx := c2 }
  let st3 := if delhook then { st2 with hookInstalled := false } else st2
  let c3 := if st3.ctx.lua_timeout then { st3.ctx with lua_timeout := false } else st3.ctx
  ({ st3 with ctx := c3, gcSteps := st3.gcSteps + 1 }, errid)

/-- The fatal message the cancellation hook raises on a kill request. -/
def scriptKilledMsg : String := "Script killed by user with SCRIPT KILL..."

/-- Result of one invocation of the cancellation hook: the updated
connection context, whether control was yielded back to the event loop
once, and the message of the fatal in-script error if one was raised. -/
structure HookResult where
  ctx : LuaCtx
  yielded : Bool
  raised : Option String

/-- Embeds `MaskCountHook` (src/src/lua_scripting.cpp, lines 548-571),
invoked every fixed number of executed instructions: it computes the
elapsed wall time since the run started; past the configured ceiling it
sets the advisory timeout flag once (with a warning) and does not abort;
while the flag is set it yields control back to the event loop once per
invocation; and it raises the fatal in-script error exactly when the kill
flag is set.  The wall clock is passed in as `now` and the limit as the
unsigned value the source casts the configuration to. -/
def MaskCountHook (lua_time_limit : Nat) (now : Nat) (c : LuaCtx) : HookResult :=
  let elapsed := now - c.lua_time_start
  let c1 := if lua_time_limit ≤ elapsed ∧ c.lua_timeout = false
            then { c with lua_timeout := true } else c
  let y := c1.lua_timeout
  if c1.lua_kill then ⟨c1, y, some scriptKilledMsg⟩ else ⟨c1, y, none⟩

/-- ASCII case-insensitive string equality, the behavior of the libc
`strcasecmp` the kill matcher uses. -/
def strCaseEq (a b : String) : Bool :=
  List.map asciiToLower a.data == List.map asciiToLower b.data

/-- Embeds the SCRIPT_KILL_EVENT branch of `ScriptEventCallback`
(src/src/lua_scripting.cpp, lines 829-840): when the connection is
currently executing a function, the kill flag is set if the kill target
equals "all" case-insensitively or equals the executing function name
case-insensitively; otherwise the context is left untouched. -/
def ScriptEventCallbackKill (killing_func : String) (c : LuaCtx) : LuaCtx :=
  match c.lua_executing_func with
  | some f =>
    if strCaseEq killing_func "all" || strCaseEq killing_func f
    then { c with lua_kill := true } else c
  | none => c

/-! ### Command bridge -/

/-- The slice of a command registration the bridge reads: whether the
command carries the forbidden-inside-scripts flag (the
ARDB_CMD_NOSCRIPT bit of the flags word). -/
structure CmdSetting where
  noscript : Bool
deriving DecidableEq

/-- Caller source and line, as `lua_getstack`/`lua_getinfo` report them to
`luaPushError` when a calling frame is resolvable. -/
structure DbgInfo where
  source : String
  currentline : Int

/-- The message `luaPushError` (src/src/lua_scripting.cpp, lines 163-182)
places in the err field: prefixed with caller source and line when a
calling frame was resolvable, the bare message otherwise. -/
def luaPushErrorMsg (dbg : Option DbgInfo) (msg : String) : String :=
  match dbg with
  | some d => d.source ++ ": " ++ toString d.currentline ++ ": " ++ msg
  | none => msg

/-- Modelled from the spec: the engine-internal decimal rendering
`lua_tostring` applies to a number argument of a native call.  The
concrete format is irrelevant to every claim; only that numbers are
accepted as string-like arguments matters. -/
def luaNumToString (q : Rat) : String := toString q

/-- The string a native-call argument contributes, when `lua_isstring`
accepts it: strings as themselves, numbers through the engine rendering,
anything else rejected. -/
def luaArgString : LuaValue → Option String
  | .str s => some s
  | .num q => some (luaNumToString q)
  | _ => none

/-- The argument-collecting loop of `CallArdb`: all arguments must be
string-like, otherwise the whole call is rejected. -/
def collectArgs : List LuaValue → Option (List String)
  | [] => some []
  | v :: rest =>
    match luaArgString v with
    | none => none
    | some s => (collectArgs rest).map (s :: ·)

/-- Whether a wire reply is of the error kind. -/
def isErrorReply : RedisReply → Bool
  | .error _ => true
  | _ => false

/-- Reading the err field of a converted reply, as the raise path of
`CallArdb` does with `lua_gettable` before calling `lua_error`. -/
def luaTableErrField : LuaValue → LuaValue
  | .table err _ _ => err
  | _ => .nil

/-- What a bridge invocation leaves behind: an error table pushed for the
script (the `luaPushError` returns), a raised in-script error unwinding
the run (`lua_error`), or an ordinary value returned to the script. -/
inductive CallOutcome : Type where
  | pushError : String → CallOutcome
  | raised : LuaValue → CallOutcome
  | returned : LuaValue → CallOutcome

/-- Result of a bridge invocation: the outcome, the store state after it,
and whether a command was dispatched to the host executor. -/
structure CallResult (Store : Type) where
  outcome : CallOutcome
  store : Store
  dispatched : Bool

/-- Embeds `CallArdb` (src/src/lua_scripting.cpp, lines 341-415), the
shared bridge behind redis.call and redis.pcall: reject an empty argument
list; reject any non-string-like argument; lowercase the first argument
and look up the command registration (the registry and the host executor
live outside the studied file and enter as `findSetting` and `exec`,
per the spec dispatch contract); unknown commands and commands flagged
no-script are rejected before any dispatch; otherwise the command is
executed, the captured reply converted, and — in the raise-error variant,
when the reply is an error — the err field is raised as an in-script
error, while otherwise the converted value is returned to the script. -/
def CallArdb {Store : Type} (findSetting : String → Option CmdSetting)
    (exec : Store → List String → Store × RedisReply) (dbg : Option DbgInfo)
    (store : Store) (raise_error : Bool) (args : List LuaValue) : CallResult Store :=
  match args with
  | [] =>
    ⟨.pushError (luaPushErrorMsg dbg "Please specify at least one argument for redis.call()"),
     store, false⟩
  | a0 :: rest =>
    match luaArgString a0, collectArgs rest with
    | some s0, some srest =>
      let cmdname := lower_string s0
      match findSetting cmdname with
      | none =>
        ⟨.pushError (luaPushErrorMsg dbg "Unknown Redis command called from Lua script"),
         store, false⟩
      | some setting =>
        if setting.noscript then
          ⟨.pushError (luaPushErrorMsg dbg "This Redis command is not allowed from scripts"),
           store, false⟩
        else
          let (store1, reply) := exec store (cmdname :: srest)
          let v := redisProtocolToLuaType reply
          if raise_error ∧ isErrorReply reply = true then ⟨.raised (luaTableErrField v), store1, true⟩
          else ⟨.returned v, store1, true⟩
    | _, _ =>
      ⟨.pushError (luaPushErrorMsg dbg "Lua redis() command arguments must be strings or integers"),
       store, false⟩

/-- Embeds `Call` (src/src/lua_scripting.cpp, lines 422-425): the shared
bridge invoked with raise_error set to false. -/
def Call {Store : Type} (findSetting : String → Option CmdSetting)
    (exec : Store → List String → Store × RedisReply) (dbg : Option DbgInfo)
    (store : Store) (args : List LuaValue) : CallResult Store :=
  CallArdb findSetting exec dbg store false args

/-- Embeds `PCall` (src/src/lua_scripting.cpp, lines 417-420): the shared
bridge invoked with raise_error set to true. -/
def PCall {Store : Type} (findSetting : String → Option CmdSetting)
    (exec : Store → List String → Store × RedisReply) (dbg : Option DbgInfo)
    (store : Store) (args : List LuaValue) : CallResult Store :=
  CallArdb findSetting exec dbg store true args

/-- The native entry points `Init` registers in the redis table. -/
inductive RedisNative : Type where
  | callFn | pcallFn | logFn | sha1hexFn | errorReplyFn | statusReplyFn

/-- The function entries of the redis global table as `Init`
(src/src/lua_scripting.cpp, lines 580-625) registers them, in order (the
numeric LOG_* level fields registered between them are omitted as they
are not functions). -/
def redisTable : List (String × RedisNative) :=
  [("call", .callFn), ("pcall", .pcallFn), ("log", .logFn), ("sha1hex", .sha1hexFn),
   ("error_reply", .errorReplyFn), ("status_reply", .statusReplyFn)]

/-! ### Deterministic randomness -/

/-- Modelled from the spec: the state of the shared deterministic
linear-congruential generator (util/rand, outside the studied file) —
48 bits, shared with the rest of the store. -/
structure RngState where
  x : Nat

/-- Modelled from the spec: the exclusive upper bound of the values the
shared generator hands to the scripting layer. -/
def REDIS_LRAND48_MAX : Nat := 2 ^ 31

/-- Modelled from the spec: reseeding the shared generator
(`redisSrand48`), a deterministic function of the seed value alone. -/
def redisSrand48 (seedval : Nat) : RngState :=
  ⟨(seedval * 2 ^ 16 + 0x330E) % 2 ^ 48⟩

/-- Modelled from the spec: one draw of the shared linear-congruential
generator (`redisLrand48`), with the classic rand48 multiplier and
increment, returning the top 31 bits of the new state. -/
def redisLrand48 (s : RngState) : Nat × RngState :=
  let x1 := (0x5DEECE66D * s.x + 0xB) % 2 ^ 48
  (x1 / 2 ^ 17, ⟨x1⟩)

/-- Embeds `MathRandom` (src/src/lua_scripting.cpp, lines 510-541), the
replacement for math.random: a single draw from the shared generator is
reduced to a rational in the unit interval, then shaped by the argument
count as in the source: no arguments yield the raw fraction, one upper
bound yields an integer between 1 and the bound, two bounds an integer
between them; empty intervals and extra arguments are argument errors. -/
def MathRandom (args : List Int) (s : RngState) : Except String Rat × RngState :=
  let (n, s1) := redisLrand48 s
  let r : Rat := ((n % REDIS_LRAND48_MAX : Nat) : Rat) / ((REDIS_LRAND48_MAX : Nat) : Rat)
  match args with
  | [] => (.ok r, s1)
  | [u] =>
    if 1 ≤ u then (.ok (((r * (u : Rat)).floor : Rat) + 1), s1)
    else (.error "interval is empty", s1)
  | [l, u] =>
    if l ≤ u then (.ok (((r * ((u : Rat) - (l : Rat) + 1)).floor : Rat) + (l : Rat)), s1)
    else (.error "interval is empty", s1)
  | _ => (.error "wrong number of arguments", s1)

/-- Embeds `MathRandomSeed` (src/src/lua_scripting.cpp, lines 542-546),
the replacement for math.randomseed: it reseeds the shared generator. -/
def MathRandomSeed (seed : Nat) (_s : RngState) : RngState := redisSrand48 seed

/-- One unit-interval draw through `MathRandom` with no arguments (that
call always succeeds). -/
def drawUnit (s : RngState) : Rat × RngState :=
  match MathRandom [] s with
  | (.ok q, s1) => (q, s1)
  | (.error _, s1) => (0, s1)

/-- A fixed number of consecutive draws through the zero-argument
math.random of the sandbox. -/
def drawN : Nat → RngState → List Rat × RngState
  | 0, s => ([], s)
  | k + 1, s =>
    let (q, s1) := drawUnit s
    let (qs, s2) := drawN k s1
    (q :: qs, s2)

/-- The randomness-relevant slice of an `Eval` run (src/src/lua_scripting.cpp,
line 676 together with the math.random registration of `Init`): the
shared generator is reseeded to the fixed constant 0 before every run,
after which the script draws only through the sandbox math.random; the
script itself is abstracted as a function of the numbers it draws. -/
def EvalRandomized (script : List Rat → RedisReply) (draws : Nat) (_rng : RngState) :
    RedisReply × RngState :=
  let rng0 := redisSrand48 0
  let (qs, rng1) := drawN draws rng0
  (script qs, rng1)

/-! ### Globals protection -/

/-- The classification `debug.getinfo(2, "S").what` reports for the frame
performing a global access: a main chunk, a C function, or a compiled
script function. -/
inductive ChunkKind : Type where
  | mainChunk | cChunk | luaFunc
deriving DecidableEq

/-- The single-quote character, kept out of string literals. -/
def squote : String := ⟨[Char.ofNat 39]⟩

/-- The message the protection raises for a global-creation attempt. -/
def globalCreateErr (n : String) : String :=
  "Script attempted to create global variable " ++ squote ++ n ++ squote

/-- The message the protection raises for an undefined-global read. -/
def globalAccessErr (n : String) : String :=
  "Script attempted to access unexisting global variable " ++ squote ++ n ++ squote

/-- Embeds the __newindex metamethod of the protection code installed by
`scriptingEnableGlobalsProtection` (src/src/lua_scripting.cpp, lines
122-155): when caller information exists and the assigning frame is
neither a main chunk nor a C function, the assignment of a new global
fails with a message naming the identifier; otherwise the raw assignment
is performed. -/
def mtNewindex (g : String → Option LuaValue) (info : Option ChunkKind) (n : String)
    (v : LuaValue) : Except String (String → Option LuaValue) :=
  match info with
  | some w =>
    if w ≠ .mainChunk ∧ w ≠ .cChunk then .error (globalCreateErr n)
    else .ok (fun m => if m = n then some v else g m)
  | none => .ok (fun m => if m = n then some v else g m)

/-- Embeds the __index metamethod of the protection code: when caller
information exists and the reading frame is not a C function, the read of
an undefined global fails with a message naming the identifier; otherwise
the raw value (nil) is returned. -/
def mtIndex (g : String → Option LuaValue) (info : Option ChunkKind) (n : String) :
    Except String LuaValue :=
  match info with
  | some w =>
    if w ≠ .cChunk then .error (globalAccessErr n)
    else .ok ((g n).getD .nil)
  | none => .ok ((g n).getD .nil)

/-- Modelled from the spec: the engine metatable dispatch for assignment —
an assignment to a name already present in the global table bypasses
__newindex; a new name goes through the installed metamethod. -/
def setGlobalProtected (g : String → Option LuaValue) (info : Option ChunkKind)
    (n : String) (v : LuaValue) : Except String (String → Option LuaValue) :=
  if (g n).isSome then .ok (fun m => if m = n then some v else g m)
  else mtNewindex g info n v

/-- Modelled from the spec: the engine metatable dispatch for reads — a
read of a present name bypasses __index; an absent name goes through the
installed metamethod. -/
def getGlobalProtected (g : String → Option LuaValue) (info : Option ChunkKind)
    (n : String) : Except String LuaValue :=
  match g n with
  | some v => .ok v
  | none => mtIndex g info n

/-! ### Helper lemmas -/

/-- Induction over Lua values with a member hypothesis for tables. -/
theorem luaValueRec (motive : LuaValue → Prop)
    (hnil : motive .nil) (hother : motive .other)
    (hbool : ∀ b, motive (.boolean b)) (hnum : ∀ q, motive (.num q))
    (hstr : ∀ s, motive (.str s))
    (htable : ∀ err ok arr, motive err → motive ok → (∀ v ∈ arr, motive v) →
      motive (.table err ok arr)) :
    ∀ v, motive v
  | .nil => hnil
  | .other => hother
  | .boolean b => hbool b
  | .num q => hnum q
  | .str s => hstr s
  | .table err ok arr =>
    htable err ok arr (luaValueRec motive hnil hother hbool hnum hstr htable err)
      (luaValueRec motive hnil hother hbool hnum hstr htable ok)
      (fun v hv => luaValueRec motive hnil hother hbool hnum hstr htable v)
termination_by v => sizeOf v
decreasing_by
  · simp
    omega
  · simp
    omega
  · have := List.sizeOf_lt_of_mem hv
    simp
    omega

/-- Induction over wire replies with a member hypothesis for arrays. -/
theorem redisReplyRec (motive : RedisReply → Prop)
    (hi : ∀ i, motive (.integer i)) (hnil : motive .nil)
    (hbulk : ∀ s, motive (.bulk s)) (hstatus : ∀ s, motive (.status s))
    (herror : ∀ s, motive (.error s))
    (harray : ∀ l, (∀ r ∈ l, motive r) → motive (.array l)) :
    ∀ r, motive r
  | .integer i => hi i
  | .nil => hnil
  | .bulk s => hbulk s
  | .status s => hstatus s
  | .error s => herror s
  | .array l =>
    harray l (fun r hr => redisReplyRec motive hi hnil hbulk hstatus herror harray r)
termination_by r => sizeOf r
decreasing_by
  have := List.sizeOf_lt_of_mem hr
  simp
  omega

/-- A character list without the CR LF sequence is left unchanged by the
replacement pass. -/
theorem replaceCRLF_eq_self : ∀ l : List Char, containsCRLF l = false → replaceCRLF l = l
  | [], _ => rfl
  | [_], _ => rfl
  | a :: b :: rest, h => by
    by_cases hab : a = '\r' ∧ b = '\n'
    · simp only [containsCRLF, if_pos hab] at h
      exact Bool.noConfusion h
    · simp only [containsCRLF, if_neg hab] at h
      simp only [replaceCRLF, if_neg hab]
      rw [replaceCRLF_eq_self (b :: rest) h]

/-- A string without the CR LF sequence is a fixed point of the newline
sanitation. -/
theorem string_replace_eq_self {s : String} (h : containsCRLF s.data = false) :
    string_replace s = s := by
  unfold string_replace
  rw [replaceCRLF_eq_self s.data h]

/-- A character list without NUL is copied whole by the char-pointer
conversion. -/
theorem takeWhile_not_nul_eq_self : ∀ l : List Char, containsNul l = false →
    (l.takeWhile fun c => !(c == Char.ofNat 0)) = l := by
  intro l
  induction l with
  | nil => intro _; rfl
  | cons a rest ih =>
    intro h
    simp only [containsNul, List.any_cons, Bool.or_eq_false_iff] at h
    simp only [List.takeWhile_cons, h.1, Bool.not_false, if_true]
    rw [ih]
    simp only [containsNul, h.2]

/-- A string without NUL is a fixed point of the char-pointer copy. -/
theorem charPtrToStdString_eq_self {s : String} (h : containsNul s.data = false) :
    charPtrToStdString s = s := by
  unfold charPtrToStdString
  rw [takeWhile_not_nul_eq_self s.data h]

/-- Truncation toward zero is the identity on integral rationals. -/
theorem truncRat_intCast (i : Int) : truncRat (i : Rat) = i := by
  unfold truncRat
  rw [Rat.intCast_num, Rat.intCast_den]
  split
  · rename_i h
    rw [Nat.div_one, Int.toNat_of_nonneg h]
  · rename_i h
    push_neg at h
    rw [Nat.div_one, Int.toNat_of_nonneg (by omega : (0 : Int) ≤ -i)]
    omega

/-- The reply-to-script conversion never produces the nil value. -/
theorem redisProtocolToLuaType_not_nil (r : RedisReply) :
    isNilVal (redisProtocolToLuaType r) = false := by
  cases r <;> simp [redisProtocolToLuaType, isNilVal]

/-- Every element of a marshal-safe array list is marshal-safe. -/
theorem marshalSafeList_mem : ∀ {l : List RedisReply}, marshalSafeList l = true →
    ∀ r ∈ l, marshalSafe r = true := by
  intro l
  induction l with
  | nil => intro _ r hr; cases hr
  | cons a rest ih =>
    intro h r hr
    simp only [marshalSafeList, Bool.and_eq_true] at h
    rcases List.mem_cons.mp hr with rfl | hmem
    · exact h.1
    · exact ih h.2 r hmem

/-- The array loop acts as a plain map on the image of the reply-to-script
conversion, because that image never contains nil. -/
theorem convArray_luaTypeList (l : List RedisReply) :
    convArray (luaTypeList l) =
      (luaTypeList l).map luaReplyToRedisReply := by
  induction l with
  | nil => simp [luaTypeList, convArray]
  | cons r rest ih =>
    simp [luaTypeList, convArray, redisProtocolToLuaType_not_nil, ih]

/-- Elementwise round trips assemble into a round trip of the element
list. -/
theorem map_roundtrip : ∀ {l : List RedisReply},
    (∀ r ∈ l, luaReplyToRedisReply (redisProtocolToLuaType r) = r) →
    (luaTypeList l).map luaReplyToRedisReply = l := by
  intro l
  induction l with
  | nil => intro _; simp [luaTypeList]
  | cons a rest ih =>
    intro h
    simp only [luaTypeList, List.map_cons]
    rw [h a (by simp), ih (fun r hr => h r (by simp [hr]))]

/-- The round trip reproduces every marshal-safe wire reply exactly. -/
theorem roundtrip_of_marshalSafe :
    ∀ r : RedisReply, marshalSafe r = true →
      luaReplyToRedisReply (redisProtocolToLuaType r) = r := by
  intro r
  induction r using redisReplyRec with
  | hi i =>
    intro h
    simp only [marshalSafe, beq_iff_eq] at h
    simp [redisProtocolToLuaType, luaReplyToRedisReply, h, truncRat_intCast]
  | hnil =>
    intro _
    simp [redisProtocolToLuaType, luaReplyToRedisReply]
  | hbulk s =>
    intro _
    simp [redisProtocolToLuaType, luaReplyToRedisReply]
  | hstatus s =>
    intro h
    simp only [marshalSafe, Bool.and_eq_true, Bool.not_eq_true'] at h
    simp [redisProtocolToLuaType, luaReplyToRedisReply, strVal?,
      charPtrToStdString_eq_self h.2, string_replace_eq_self h.1]
  | herror s =>
    intro h
    simp only [marshalSafe, Bool.and_eq_true, Bool.not_eq_true'] at h
    simp [redisProtocolToLuaType, luaReplyToRedisReply, strVal?,
      charPtrToStdString_eq_self h.2, string_replace_eq_self h.1]
  | harray l ih =>
    intro h
    simp only [marshalSafe] at h
    simp only [redisProtocolToLuaType, luaReplyToRedisReply, strVal?,
      convArray_luaTypeList]
    have hall : ∀ r ∈ l, luaReplyToRedisReply (redisProtocolToLuaType r) = r :=
      fun r hr => ih r hr (marshalSafeList_mem h r hr)
    rw [map_roundtrip hall]

/-- The index-probing reading of a table, started at any positive index,
coincides with the stop-at-first-nil loop over the remaining stored
values, whenever the two element conversions coincide. -/
theorem probe_eq_convArray (arr : List LuaValue)
    (hall : ∀ v ∈ arr, toWireReplySpec v = luaReplyToRedisReply v) :
    ∀ (fuel j : Nat), 1 ≤ j → arr.length + 1 - j ≤ fuel →
      probe arr j = convArray (arr.drop (j - 1)) := by
  intro fuel
  induction fuel with
  | zero =>
    intro j hj hf
    have hge : arr.length ≤ j - 1 := by omega
    have htg : tableGet arr j = .nil := by
      simp [tableGet, Nat.not_lt.mpr hge]
    rw [probe.eq_def, htg, List.drop_eq_nil_of_le hge]
    simp [isNilVal, convArray]
  | succ n ih =>
    intro j hj hf
    by_cases hlt : j - 1 < arr.length
    · have htg : tableGet arr j = arr[j - 1] := by simp [tableGet, hlt]
      have hj1 : j - 1 + 1 = j := by omega
      have hdrop : arr.drop (j - 1) = arr[j - 1] :: arr.drop j := by
        rw [List.drop_eq_getElem_cons hlt, hj1]
      by_cases hnil : isNilVal (arr[j - 1]) = true
      · rw [probe.eq_def, htg, hdrop]
        simp [hnil, convArray]
      · rw [probe.eq_def, htg, hdrop]
        simp only [convArray, hnil, dite_false, if_neg hnil]
        rw [hall _ (arr.getElem_mem hlt)]
        have hrec := ih (j + 1) (by omega) (by omega)
        simp only [Nat.add_sub_cancel] at hrec
        rw [hrec]
        simp
    · have hge : arr.length ≤ j - 1 := Nat.not_lt.mp hlt
      have htg : tableGet arr j = .nil := by
        simp [tableGet, Nat.not_lt.mpr hge]
      rw [probe.eq_def, htg, List.drop_eq_nil_of_le hge]
      simp [isNilVal, convArray]

/-- C1 (amended): the script-to-wire conversion `luaReplyToRedisReply`
agrees on every script value with the reference map amended by the NUL
truncation: strings become bulk strings, boolean false becomes nil,
boolean true becomes integer 1, numbers become integers truncated toward
zero, tables with a string err field become errors whose message is
first truncated at its first NUL byte (the char-pointer string
conversion) and then newline-sanitized, otherwise tables with a string
ok field become statuses with the same truncation and sanitation,
otherwise tables become arrays read at indices 1, 2, 3, ... up to the
first missing entry, and anything else becomes nil.  (The original
claim, without the truncation, fails on payloads with an embedded NUL.) -/
theorem C1_marshal_matches_reference :
    ∀ v : LuaValue, luaReplyToRedisReply v = toWireReplySpec v := by
  intro v
  induction v using luaValueRec with
  | hnil => simp [luaReplyToRedisReply, toWireReplySpec]
  | hother => simp [luaReplyToRedisReply, toWireReplySpec]
  | hbool b => cases b <;> simp [luaReplyToRedisReply, toWireReplySpec]
  | hnum q => simp [luaReplyToRedisReply, toWireReplySpec]
  | hstr s => simp [luaReplyToRedisReply, toWireReplySpec]
  | htable err ok arr ihe iho iharr =>
    rw [luaReplyToRedisReply.eq_def, toWireReplySpec.eq_def]
    cases herr : strVal? err with
    | some e => simp [herr]
    | none =>
      cases hok : strVal? ok with
      | some s => simp [herr, hok]
      | none =>
        simp only [herr, hok, RedisReply.array.injEq]
        have := probe_eq_convArray arr (fun v hv => (iharr v hv).symm)
          (arr.length + 1) 1 (by omega) (by omega)
        simp only [Nat.sub_self, List.drop_zero] at this
        exact this.symm

/-- Counterexample for C1 as originally stated: a table whose err field
holds a string with an embedded NUL byte is converted to the error whose
message stops at that byte, not to the full payload the original
reference map prescribes. -/
theorem C1_counterexample :
    luaReplyToRedisReply (.table (.str ⟨['a', Char.ofNat 0, 'b']⟩) .nil []) =
      .error "a" ∧
    luaReplyToRedisReply (.table (.str ⟨['a', Char.ofNat 0, 'b']⟩) .nil []) ≠
      .error ⟨['a', Char.ofNat 0, 'b']⟩ := by
  constructor
  · simp only [luaReplyToRedisReply, strVal?]
    exact congrArg RedisReply.error (by decide)
  · simp only [luaReplyToRedisReply, strVal?]
    intro h
    injection h with h
    revert h
    decide

/-- C2 (amended): for every wire reply that is not of integer kind, in
which no status or error payload at any nesting depth contains the CR LF
sequence or a NUL byte, and in which every integer payload at any
nesting depth is exactly representable as an IEEE 754 double, converting
to a script value and back reproduces the reply exactly, order and
nesting included.  (The original claim fails in three ways: the backward
conversion replaces CR LF in status and error payloads by a space and
truncates them at a NUL byte, and the forward conversion rounds integer
magnitudes beyond 2^53 through the double cast.) -/
theorem C2_roundtrip_non_integer (v : RedisReply)
    (hkind : isIntegerReply v = false) (hwf : marshalSafe v = true) :
    luaReplyToRedisReply (redisProtocolToLuaType v) = v :=
  roundtrip_of_marshalSafe v hwf

/-- Witness for C2: a concrete status reply round trips. -/
theorem C2_roundtrip_non_integer_witness :
    isIntegerReply (.status "OK") = false ∧ marshalSafe (.status "OK") = true ∧
      luaReplyToRedisReply (redisProtocolToLuaType (.status "OK")) = .status "OK" := by
  refine ⟨rfl, ?_, C2_roundtrip_non_integer _ rfl ?_⟩ <;>
    · simp only [marshalSafe]
      decide

/-- Counterexample for C2 as originally stated: an error reply whose
payload contains CR LF comes back with a space instead, an error reply
whose payload contains a NUL byte comes back truncated, and an array
holding the integer 2^53 + 1 comes back holding 2^53, rounded by the
int64-to-double cast — none of these non-integer replies round trips. -/
theorem C2_counterexample :
    luaReplyToRedisReply (redisProtocolToLuaType (.error "a\r\nb")) ≠ .error "a\r\nb" ∧
    luaReplyToRedisReply (redisProtocolToLuaType (.error ⟨['a', Char.ofNat 0, 'b']⟩)) ≠
      .error ⟨['a', Char.ofNat 0, 'b']⟩ ∧
    luaReplyToRedisReply (redisProtocolToLuaType (.array [.integer (2 ^ 53 + 1)])) ≠
      .array [.integer (2 ^ 53 + 1)] := by
  refine ⟨?_, ?_, ?_⟩
  · simp only [redisProtocolToLuaType, luaReplyToRedisReply, strVal?]
    intro h
    injection h with h
    revert h
    decide
  · simp only [redisProtocolToLuaType, luaReplyToRedisReply, strVal?]
    intro h
    injection h with h
    revert h
    decide
  · have hd : doubleOfInt (2 ^ 53 + 1) = 2 ^ 53 := by decide
    simp only [redisProtocolToLuaType, luaTypeList, luaReplyToRedisReply, strVal?,
      convArray, isNilVal, hd, truncRat_intCast, if_false]
    intro h
    injection h with h
    injection h with h1 h2
    injection h1 with h1
    revert h1
    decide

/-- C3: the length guard holds — a digest whose length is not 40 gets
NOSCRIPT independently of all state, before any lookup — but the
store-lookup half of the claim fails on the code: under the return
convention the same file pins through `Exists` (line 780, record exists
iff GetScript yields 0), the test `!GetScript(...)` at line 708 fires
NOSCRIPT exactly on a store HIT, while a 40-character digest with no
compiled function and no store record falls through, compiles the empty
body left in `cachedfunc`, and proceeds to the protected call instead of
returning NOSCRIPT.  This theorem evaluates the code at both inputs:
the unknown digest reaches `proceed` and the cached digest is answered
with NOSCRIPT. -/
theorem C3_evalsha_noscript_bug :
    (∀ (st st2 : InterpState) (compile compile2 : String → Option String),
      EvalResolve st compile "ab" true = .errorReply noscriptReply ∧
      EvalResolve st compile "ab" true = EvalResolve st2 compile2 "ab" true) ∧
    EvalResolve ⟨fun _ => false, fun _ => none⟩ (fun _ => none)
      "aaaaaaaaaaaaaaaaaaaaaaaaaaaaaaaaaaaaaaaa" true =
      .proceed "f_aaaaaaaaaaaaaaaaaaaaaaaaaaaaaaaaaaaaaaaa" ∧
    EvalResolve
      ⟨fun _ => false,
       fun n => if n == "f_aaaaaaaaaaaaaaaaaaaaaaaaaaaaaaaaaaaaaaaa"
                then some "return 1" else none⟩
      (fun _ => none) "aaaaaaaaaaaaaaaaaaaaaaaaaaaaaaaaaaaaaaaa" true =
      .errorReply noscriptReply :=
  ⟨fun _ _ _ _ => ⟨rfl, rfl⟩, rfl, rfl⟩

/-- C4: when the lowercased first argument of a bridge call names no
registered command, the call yields the unknown-command error, and when
the named command carries the no-script flag, it yields the forbidden
error; in both cases nothing is dispatched to the host executor and the
store is returned unchanged. -/
theorem C4_bridge_gating {Store : Type} (findSetting : String → Option CmdSetting)
    (exec : Store → List String → Store × RedisReply) (dbg : Option DbgInfo)
    (store : Store) (raise_error : Bool) (a0 : LuaValue) (rest : List LuaValue)
    (s0 : String) (srest : List String)
    (h0 : luaArgString a0 = some s0) (hrest : collectArgs rest = some srest) :
    (findSetting (lower_string s0) = none →
      CallArdb findSetting exec dbg store raise_error (a0 :: rest) =
        ⟨.pushError (luaPushErrorMsg dbg "Unknown Redis command called from Lua script"),
         store, false⟩) ∧
    (∀ setting, findSetting (lower_string s0) = some setting → setting.noscript = true →
      CallArdb findSetting exec dbg store raise_error (a0 :: rest) =
        ⟨.pushError (luaPushErrorMsg dbg "This Redis command is not allowed from scripts"),
         store, false⟩) := by
  constructor
  · intro hfind
    simp [CallArdb, h0, hrest, hfind]
  · intro setting hfind hns
    simp [CallArdb, h0, hrest, hfind, hns]

/-- Witness for C4: with a registry holding only a no-script command, an
unknown command and the flagged command are both rejected with the store
untouched. -/
theorem C4_bridge_gating_witness :
    CallArdb (fun s => if s = "shutdown" then some ⟨true⟩ else none)
      (fun st _ => (st, .nil)) none 7 true [.str "nope"] =
      ⟨.pushError "Unknown Redis command called from Lua script", 7, false⟩ ∧
    CallArdb (fun s => if s = "shutdown" then some ⟨true⟩ else none)
      (fun st _ => (st, .nil)) none 7 true [.str "SHUTDOWN"] =
      ⟨.pushError "This Redis command is not allowed from scripts", 7, false⟩ :=
  ⟨(C4_bridge_gating (fun s => if s = "shutdown" then some ⟨true⟩ else none)
      (fun st _ => (st, .nil)) none 7 true (.str "nope") [] "nope" [] rfl rfl).1
      (by decide),
   (C4_bridge_gating (fun s => if s = "shutdown" then some ⟨true⟩ else none)
      (fun st _ => (st, .nil)) none 7 true (.str "SHUTDOWN") [] "SHUTDOWN" [] rfl rfl).2
      ⟨true⟩ (by decide) rfl⟩

/-- C5: loading the identical body twice yields the identical digest both
times, both calls succeed, and the second define leaves the state exactly
where the first left it — redefining an already cached digest is a
functional no-op. -/
theorem C5_load_idempotent (compile : String → Option String) (st : InterpState)
    (func : String)
    (hc : compile (funcdef (funcNameOfDigest (sha1_sum func)) func) = none) :
    (Load compile st func).2.2 = (Load compile (Load compile st func).1 func).2.2 ∧
    (Load compile st func).2.1 = true ∧
    (Load compile (Load compile st func).1 func).2.1 = true ∧
    (Load compile (Load compile st func).1 func).1 = (Load compile st func).1 := by
  have hc2 : compile (funcdef ("f_" ++ sha1_sum func) func) = none := by
    simpa [funcNameOfDigest] using hc
  simp only [Load, CreateLuaFunction, funcNameOfDigest, hc2]
  refine ⟨by trivial, by trivial, by trivial, ?_⟩
  congr 1
  · funext n
    rw [← Bool.or_assoc, Bool.or_self]
  · funext n
    by_cases h : n == ("f_" ++ sha1_sum func) <;> simp [h]

/-- Witness for C5: loading a concrete body twice in a fresh state, with a
compiler accepting every chunk. -/
theorem C5_load_idempotent_witness :
    (Load (fun _ => none) ⟨fun _ => false, fun _ => none⟩ "return 1").2.2 =
      (Load (fun _ => none)
        (Load (fun _ => none) ⟨fun _ => false, fun _ => none⟩ "return 1").1 "return 1").2.2 ∧
    (Load (fun _ => none) ⟨fun _ => false, fun _ => none⟩ "return 1").2.1 = true ∧
    (Load (fun _ => none)
      (Load (fun _ => none) ⟨fun _ => false, fun _ => none⟩ "return 1").1 "return 1").2.1 = true ∧
    (Load (fun _ => none)
      (Load (fun _ => none) ⟨fun _ => false, fun _ => none⟩ "return 1").1 "return 1").1 =
      (Load (fun _ => none) ⟨fun _ => false, fun _ => none⟩ "return 1").1 :=
  C5_load_idempotent (fun _ => none) ⟨fun _ => false, fun _ => none⟩ "return 1" rfl

/-- C6: for a fixed script and fixed inputs, two separate runs produce
identical outputs even when the script draws random numbers, because the
run reseeds the shared deterministic generator to the fixed constant 0
before every run and the sandbox math.random draws only from that shared
generator — the output is independent of the generator state the run
starts from. -/
theorem C6_deterministic_randomness (script : List Rat → RedisReply) (draws : Nat)
    (rng1 rng2 : RngState) :
    (EvalRandomized script draws rng1).1 = (EvalRandomized script draws rng2).1 := rfl

/-- C7 (amended): every run, success or error, completes the cleanup
steps — executing_function is cleared, a lingering timeout flag is
cleared, one incremental garbage-collection step is performed, and the
hook is uninstalled whenever a positive time limit had it installed; the
kill flag, however, is cleared at run start (the protected call begins
with it false), not at completion: after the run it retains whatever
value the run's events left in it. -/
theorem C7_cleanup (limit : Int) (now : Nat) (funcname : String)
    (body : LuaCtx → LuaCtx × Bool) (st : MachineState) :
    (EvalRunPhase limit now funcname body st).1.ctx.lua_executing_func = none ∧
    (EvalRunPhase limit now funcname body st).1.ctx.lua_timeout = false ∧
    (EvalRunPhase limit now funcname body st).1.gcSteps = st.gcSteps + 1 ∧
    (0 < limit → (EvalRunPhase limit now funcname body st).1.hookInstalled = false) ∧
    (runStartCtx st.ctx now funcname).lua_kill = false ∧
    (EvalRunPhase limit now funcname body st).1.ctx.lua_kill =
      (body (runStartCtx st.ctx now funcname)).1.lua_kill := by
  unfold EvalRunPhase
  by_cases hd : 0 < limit <;>
    · simp only [hd, if_true, if_false, runStartCtx]
      cases hb : body (runStartCtx st.ctx now funcname) with
      | mk c1 errid =>
        simp [runStartCtx] at hb
        simp [hb]
        split_ifs <;> simp_all

/-- Witness for C7: a positive limit on a concrete run leaves the hook
uninstalled. -/
theorem C7_cleanup_witness :
    (EvalRunPhase 1 5 "f_ab" (fun c => (c, false))
      ⟨⟨0, none, false, false⟩, false, 0⟩).1.hookInstalled = false :=
  (C7_cleanup 1 5 "f_ab" (fun c => (c, false))
      ⟨⟨0, none, false, false⟩, false, 0⟩).2.2.2.1 (by decide)

/-- Counterexample for C7 as stated: a run during which a kill event for
this function arrives ends with the kill flag still set — the context is
not reset to empty at run completion (the flag is cleared at the start of
the next run instead), and the recorded start time persists as well. -/
theorem C7_counterexample :
    (EvalRunPhase 1 5 "f_ab" (fun c => (ScriptEventCallbackKill "all" c, true))
      ⟨⟨0, none, false, false⟩, false, 0⟩).1.ctx.lua_kill = true ∧
    (EvalRunPhase 1 5 "f_ab" (fun c => (ScriptEventCallbackKill "all" c, true))
      ⟨⟨0, none, false, false⟩, false, 0⟩).1.ctx.lua_time_start = 5 := by
  constructor <;> rfl

/-- C8: the cancellation hook raises the fatal kill error exactly when the
kill flag is set; a mere timeout only sets the advisory flag — once, and
only when not already flagged — and raises nothing; an already flagged
context passes through the hook unchanged; the kill event callback sets
the kill flag on a connection exactly when it is executing a function and
the kill target matches "all" or the function name case-insensitively,
and a kill naming a different function leaves the context untouched. -/
theorem C8_cancellation (limit now : Nat) (c : LuaCtx) (killing f : String) :
    (MaskCountHook limit now c).raised.isSome = c.lua_kill ∧
    (c.lua_kill = true → (MaskCountHook limit now c).raised = some scriptKilledMsg) ∧
    (c.lua_kill = false → (MaskCountHook limit now c).raised = none ∧
      (limit ≤ now - c.lua_time_start → c.lua_timeout = false →
        (MaskCountHook limit now c).ctx.lua_timeout = true)) ∧
    (c.lua_timeout = true → (MaskCountHook limit now c).ctx = c) ∧
    ((ScriptEventCallbackKill killing c).lua_kill = true ↔
      (c.lua_kill = true ∨ (∃ g, c.lua_executing_func = some g ∧
        (strCaseEq killing "all" = true ∨ strCaseEq killing g = true)))) ∧
    (c.lua_executing_func = some f → strCaseEq killing "all" = false →
      strCaseEq killing f = false → ScriptEventCallbackKill killing c = c) := by
  refine ⟨?_, ?_, ?_, ?_, ?_, ?_⟩
  · by_cases h1 : limit ≤ now - c.lua_time_start ∧ c.lua_timeout = false <;>
      by_cases h2 : c.lua_kill = true <;> simp [MaskCountHook, h1, h2]
  · intro hk
    by_cases h1 : limit ≤ now - c.lua_time_start ∧ c.lua_timeout = false <;>
      simp [MaskCountHook, h1, hk]
  · intro hk
    refine ⟨?_, ?_⟩
    · by_cases h1 : limit ≤ now - c.lua_time_start ∧ c.lua_timeout = false <;>
        simp [MaskCountHook, h1, hk]
    · intro he ht
      simp [MaskCountHook, he, ht, hk]
  · intro ht
    by_cases h2 : c.lua_kill = true <;> simp [MaskCountHook, ht, h2]
  · cases hce : c.lua_executing_func with
    | none => simp [ScriptEventCallbackKill, hce]
    | some g =>
      by_cases hall : strCaseEq killing "all" = true <;>
        by_cases hg : strCaseEq killing g = true <;>
          simp [ScriptEventCallbackKill, hce, hall, hg]
  · intro hce hall hf
    simp [ScriptEventCallbackKill, hce, hall, hf]

/-- Witness for C8: a kill-flagged context is terminated, an unflagged
overrunning context is only advisory-flagged, an already flagged context
passes through unchanged, and a kill naming a different function has no
effect. -/
theorem C8_cancellation_witness :
    (MaskCountHook 10 20 ⟨0, some "ab", false, true⟩).raised = some scriptKilledMsg ∧
    (MaskCountHook 10 20 ⟨0, some "ab", false, false⟩).raised = none ∧
    (MaskCountHook 10 20 ⟨0, some "ab", false, false⟩).ctx.lua_timeout = true ∧
    (MaskCountHook 10 20 ⟨0, some "ab", true, false⟩).ctx = ⟨0, some "ab", true, false⟩ ∧
    ScriptEventCallbackKill "zz" ⟨0, some "ab", false, false⟩ = ⟨0, some "ab", false, false⟩ :=
  ⟨(C8_cancellation 10 20 ⟨0, some "ab", false, true⟩ "zz" "ab").2.1 rfl,
   ((C8_cancellation 10 20 ⟨0, some "ab", false, false⟩ "zz" "ab").2.2.1 rfl).1,
   ((C8_cancellation 10 20 ⟨0, some "ab", false, false⟩ "zz" "ab").2.2.1 rfl).2
     (by decide) rfl,
   (C8_cancellation 10 20 ⟨0, some "ab", true, false⟩ "zz" "ab").2.2.2.1 rfl,
   (C8_cancellation 10 20 ⟨0, some "ab", false, false⟩ "zz" "ab").2.2.2.2.2 rfl
     (by decide) (by decide)⟩

/-- C9: with the globals protection installed, a script-authored
assignment (a frame that is neither a main chunk nor a C function) to an
undefined top-level name fails with the error naming the identifier, and
a script-authored read of an undefined top-level name fails likewise
instead of yielding nil. -/
theorem C9_globals_protection (g : String → Option LuaValue) (n : String) (v : LuaValue)
    (hundef : g n = none) :
    setGlobalProtected g (some .luaFunc) n v = .error (globalCreateErr n) ∧
    getGlobalProtected g (some .luaFunc) n = .error (globalAccessErr n) := by
  constructor
  · simp [setGlobalProtected, hundef, mtNewindex]
  · simp [getGlobalProtected, hundef, mtIndex]

/-- Witness for C9: a concrete undefined name in an empty global table. -/
theorem C9_globals_protection_witness :
    setGlobalProtected (fun _ => none) (some .luaFunc) "x" .nil =
      .error (globalCreateErr "x") ∧
    getGlobalProtected (fun _ => none) (some .luaFunc) "x" =
      .error (globalAccessErr "x") :=
  C9_globals_protection (fun _ => none) "x" .nil rfl

/-- C10: the entry registered under "call" is the raise_error=false
bridge and the entry under "pcall" is the raise_error=true bridge; when
the dispatched reply is an error, PCall raises the err payload as an
in-script error unwinding the run, while Call returns the err table to
the script as an ordinary value. -/
theorem C10_call_pcall {Store : Type} (findSetting : String → Option CmdSetting)
    (exec : Store → List String → Store × RedisReply) (dbg : Option DbgInfo)
    (store store1 : Store) (a0 : LuaValue) (rest : List LuaValue) (s0 m : String)
    (srest : List String) (setting : CmdSetting) :
    redisTable.lookup "call" = some .callFn ∧
    redisTable.lookup "pcall" = some .pcallFn ∧
    Call findSetting exec dbg store (a0 :: rest) =
      CallArdb findSetting exec dbg store false (a0 :: rest) ∧
    PCall findSetting exec dbg store (a0 :: rest) =
      CallArdb findSetting exec dbg store true (a0 :: rest) ∧
    (luaArgString a0 = some s0 → collectArgs rest = some srest →
      findSetting (lower_string s0) = some setting → setting.noscript = false →
      exec store (lower_string s0 :: srest) = (store1, .error m) →
      PCall findSetting exec dbg store (a0 :: rest) = ⟨.raised (.str m), store1, true⟩ ∧
      Call findSetting exec dbg store (a0 :: rest) =
        ⟨.returned (.table (.str m) .nil []), store1, true⟩) := by
  refine ⟨rfl, rfl, rfl, rfl, ?_⟩
  intro h0 hrest hfind hns hexec
  constructor <;>
    simp [Call, PCall, CallArdb, h0, hrest, hfind, hns, hexec,
      redisProtocolToLuaType, luaTableErrField, isErrorReply]

/-- Witness for C10: a registry with one permitted command whose
execution fails with an error reply. -/
theorem C10_call_pcall_witness :
    PCall (fun s => if s = "get" then some ⟨false⟩ else none)
      (fun st _ => (st, .error "ERR boom")) none 3 [.str "get"] =
      ⟨.raised (.str "ERR boom"), 3, true⟩ ∧
    Call (fun s => if s = "get" then some ⟨false⟩ else none)
      (fun st _ => (st, .error "ERR boom")) none 3 [.str "get"] =
      ⟨.returned (.table (.str "ERR boom") .nil []), 3, true⟩ :=
  (C10_call_pcall (fun s => if s = "get" then some ⟨false⟩ else none)
      (fun st _ => (st, .error "ERR boom")) none 3 3 (.str "get") [] "get" "ERR boom"
      [] ⟨false⟩).2.2.2.2 rfl rfl (by decide) rfl rfl

end ArdbLua
